import Mathlib

/-!
Shallow embedding of src/FindDriveData.py.

The file models the time helpers (is_time_greater_or_equal,
convert_24hr_to_12hr), the per-cycle filter/dedup loop of run_scraper
(lines 178-206 of the source), the sqlite-backed seen-appointments
table, and the send_email wrapper, and proves the specification
properties about them.
-/

set_option autoImplicit false

deriving instance DecidableEq for Except

namespace FindDriveData

/-- Numeric value of a decimal digit character. -/
def digitVal (c : Char) : Nat := c.toNat - 48

/-- Whether c is one of the ten decimal digit characters. -/
def digitChar (c : Char) : Bool := decide (48 ≤ c.toNat ∧ c.toNat ≤ 57)

/-- Whitespace characters of the regex class used by Python strptime. -/
def isSpaceChar (c : Char) : Bool :=
  c == ' ' || c == '\t' || c == '\n' || c == '\r' || c == '\x0b' || c == '\x0c'

/-- Hour field of strptime format directive for 12-hour clocks, whose regex
alternation is two-digit 10-12, then zero-padded 01-09, then a single digit 1-9.
Returns the parsed hour and the unconsumed characters. -/
def parseHour12 : List Char → Option (Nat × List Char)
  | [] => none
  | c :: rest =>
    if c = '1' then
      match rest with
      | d :: rest2 =>
        if digitChar d ∧ d.toNat ≤ 50 then some (10 + digitVal d, rest2)
        else some (1, rest)
      | [] => some (1, [])
    else if c = '0' then
      match rest with
      | d :: rest2 =>
        if digitChar d ∧ 49 ≤ d.toNat then some (digitVal d, rest2) else none
      | [] => none
    else if digitChar c ∧ 49 ≤ c.toNat then some (digitVal c, rest)
    else none

/-- Minute field of strptime, whose regex is a two-digit 00-59 value or a
single digit. Returns the parsed minute and the unconsumed characters. -/
def parseMinute : List Char → Option (Nat × List Char)
  | [] => none
  | [a] => if digitChar a then some (digitVal a, []) else none
  | a :: b :: rest =>
    if (digitChar a ∧ a.toNat ≤ 53) ∧ digitChar b then
      some (10 * digitVal a + digitVal b, rest)
    else if digitChar a then some (digitVal a, b :: rest)
    else none

/-- One-or-more whitespace, greedy, as strptime translates a blank in the
format string. -/
def parseWs1 : List Char → Option (List Char)
  | [] => none
  | c :: rest => if isSpaceChar c then some (rest.dropWhile isSpaceChar) else none

/-- Meridiem field of strptime, case-insensitive, which must end the input
because strptime requires the regex to consume the whole string. Returns
true for PM. -/
def parseAmPm : List Char → Option Bool
  | [a, m] =>
    if (a == 'A' || a == 'a') && (m == 'M' || m == 'm') then some false
    else if (a == 'P' || a == 'p') && (m == 'M' || m == 'm') then some true
    else none
  | _ => none

/-- Combined parse of the strptime 12-hour format: hour, colon, minute,
whitespace, meridiem, end of input. -/
def parse12Core (l : List Char) : Option (Nat × Nat × Bool) :=
  match parseHour12 l with
  | none => none
  | some (h, r1) =>
    match r1 with
    | ':' :: r2 =>
      match parseMinute r2 with
      | none => none
      | some (m, r3) =>
        match parseWs1 r3 with
        | none => none
        | some r4 =>
          match parseAmPm r4 with
          | none => none
          | some isPM => some (h, m, isPM)
    | _ => none

/-- Conversion of a parsed 12-hour value to a 24-hour value, exactly as
strptime does after matching: PM adds 12 except to 12, and 12 AM is 0. -/
def to24 (h12 : Nat) (isPM : Bool) : Nat :=
  if isPM then (if h12 = 12 then 12 else h12 + 12)
  else (if h12 = 12 then 0 else h12)

/-- Model of datetime.strptime(s, time format with hour minute meridiem),
keeping the hour-of-day and minute fields of the resulting datetime, whose
date part is the fixed default 1900-01-01 for every parse. A parse failure
is the ValueError strptime raises. -/
def strptime12 (s : String) : Except String (Nat × Nat) :=
  match parse12Core s.data with
  | none => .error ("time data " ++ s ++ " does not match format")
  | some (h, m, isPM) => .ok (to24 h isPM, m)

/-- Source function is_time_greater_or_equal (lines 65-78): parse both
strings with strptime and compare the datetimes. Both datetimes carry the
same default date, so their order is the lexicographic order on
(hour, minute). A ValueError from either parse propagates. -/
def is_time_greater_or_equal (time1 time2 : String) : Except String Bool :=
  match strptime12 time1 with
  | .error e => .error e
  | .ok t1 =>
    match strptime12 time2 with
    | .error e => .error e
    | .ok t2 => .ok (decide (t2.1 < t1.1 ∨ (t1.1 = t2.1 ∧ t2.2 ≤ t1.2)))

/-- Python int() applied to a string of characters: fails unless the string
is a nonempty run of digits (the forms with sign or blanks never arise
here). -/
def pythonInt (l : List Char) : Except String Nat :=
  if l.isEmpty then .error "invalid literal for int"
  else if l.all digitChar then
    .ok (l.foldl (fun a c => 10 * a + digitVal c) 0)
  else .error "invalid literal for int"

/-- Source function convert_24hr_to_12hr (lines 81-95): hours from the
first two characters via int(), minutes the remaining characters kept
verbatim, AM for hours below 12, and the hour mapped to 1-12 with 0 and
values above 12 adjusted. -/
def convert_24hr_to_12hr (time_str : String) : Except String String :=
  match pythonInt (time_str.data.take 2) with
  | .error e => .error e
  | .ok hours =>
    let minutes : String := String.mk (time_str.data.drop 2)
    let period : String := if hours < 12 then "AM" else "PM"
    let hours12 : Nat :=
      if 1 ≤ hours ∧ hours ≤ 12 then hours
      else if hours > 12 then hours - 12
      else 12
    .ok (Nat.repr hours12 ++ ":" ++ minutes ++ " " ++ period)

/-- Minutes past midnight of a parsed (hour-of-day, minute) pair: the
time-of-day a datetime carries once its fixed date is ignored. -/
def timeOfDayMinutes (p : Nat × Nat) : Nat := p.1 * 60 + p.2

/-- One raw appointment as scraped from a page element (lines 181-184):
the identifying long date string, 24-hour start and end times, and the
instructor label. -/
structure RawAppt where
  appointment_string : String
  data_starttime : String
  data_endtime : String
  data_instructor : String
deriving DecidableEq

/-- One persisted row of the sqlite appointments table (lines 133-142),
without the autoincrement surrogate id. -/
structure DBRow where
  appointment_string : String
  start_time_12hr : String
  end_time_12hr : String
  instructor : String
  sent_email : Nat
deriving DecidableEq

/-- Python-level errors that can escape the per-cycle loop: a ValueError
from time parsing, or a sqlite failure while the store is consulted. -/
inductive PyError where
  | malformedTime (msg : String)
  | storeUnavailable
deriving DecidableEq

/-- Configured weekday cutoff (line 44). -/
def WEEKDAY_START_TIME : String := "04:30 PM"

/-- Configured weekend cutoff (line 45). -/
def WEEKEND_START_TIME : String := "09:00 AM"

/-- Python strip(): drop leading and trailing whitespace. -/
def pythonStrip (l : List Char) : List Char :=
  ((l.dropWhile isSpaceChar).reverse.dropWhile isSpaceChar).reverse

/-- Day-of-week extraction (line 186): the part of the appointment string
before the first comma, stripped. -/
def dayOfWeekOf (s : String) : String :=
  String.mk (pythonStrip (s.data.takeWhile (fun c => c ≠ ',')))

/-- Threshold selection (line 187): weekend cutoff for Sat and Sun,
weekday cutoff otherwise. -/
def start_time_limit (r : RawAppt) : String :=
  if dayOfWeekOf r.appointment_string = "Sat" ∨ dayOfWeekOf r.appointment_string = "Sun" then
    WEEKEND_START_TIME
  else WEEKDAY_START_TIME

/-- Per-record normalization and time filtering (lines 182-188, in source
order): convert the start time, convert the end time, then compare the
converted start time against the day-type cutoff. Any ValueError
propagates. -/
def normalizeRecord (r : RawAppt) : Except String (String × String × Bool) :=
  match convert_24hr_to_12hr r.data_starttime with
  | .error e => .error e
  | .ok stime =>
    match convert_24hr_to_12hr r.data_endtime with
    | .error e => .error e
    | .ok etime =>
      match is_time_greater_or_equal stime (start_time_limit r) with
      | .error e => .error e
      | .ok ok => .ok (stime, etime, ok)

/-- The line appended to the notification list for an accepted record
(line 195). -/
def apptLine (r : RawAppt) : String :=
  r.appointment_string ++ " | Instructor: " ++ r.data_instructor

/-- The SELECT of line 191: fetchone() is truthy exactly when a row with
this appointment string exists. -/
def containsKey (rows : List DBRow) (k : String) : Bool :=
  rows.any (fun row => row.appointment_string == k)

/-- INSERT OR IGNORE (lines 196-200): append the row unless its key is
already present. -/
def insertOrIgnore (rows : List DBRow) (row : DBRow) : List DBRow :=
  if containsKey rows row.appointment_string then rows else rows ++ [row]

/-- Failure schedule of the sqlite store: with some n, the store raises
StoreUnavailable on the n-th and every later SELECT or INSERT of the
cycle; with none it never fails. -/
def storeFails (failAt : Option Nat) (ops : Nat) : Bool :=
  match failAt with
  | none => false
  | some n => decide (n ≤ ops)

/-- Outcome of the per-cycle loop: the table rows after all commits that
happened, the accumulated notification lines, and the exception that
aborted the loop if one did. -/
structure CycleOut where
  rows : List DBRow
  toSend : List String
  err : Option PyError
deriving DecidableEq

/-- The for-loop of run_scraper (lines 180-201) over the extracted
elements. State: current table rows, count of store operations performed
(driving the failure schedule), and the accumulated appointments_to_send.
Each record is normalized and time-filtered; a surviving record is looked
up in the table and, when absent, appended to the notification list and
inserted with sent_email set to 1, committed immediately. A ValueError or
store failure stops the loop there, keeping earlier commits. -/
def processLoop (failAt : Option Nat) :
    List RawAppt → List DBRow → Nat → List String → CycleOut
  | [], rows, _, acc => ⟨rows, acc, none⟩
  | r :: rest, rows, ops, acc =>
    match normalizeRecord r with
    | .error e => ⟨rows, acc, some (.malformedTime e)⟩
    | .ok (stime, etime, ok) =>
      if ok then
        if storeFails failAt ops then ⟨rows, acc, some .storeUnavailable⟩
        else if containsKey rows r.appointment_string then
          processLoop failAt rest rows (ops + 1) acc
        else
          let acc' := acc ++ [apptLine r]
          if storeFails failAt (ops + 1) then ⟨rows, acc', some .storeUnavailable⟩
          else
            processLoop failAt rest
              (insertOrIgnore rows ⟨r.appointment_string, stime, etime, r.data_instructor, 1⟩)
              (ops + 2) acc'
      else processLoop failAt rest rows ops acc

/-- Outcome of the SMTP session inside send_email: connect, starttls,
login and send either all succeed or some step raises. -/
inductive SmtpOutcome where
  | ok
  | fail (msg : String)
deriving DecidableEq

/-- Configured login page URL (line 51), appended to the email body. -/
def LOGIN_LINK : String := "https://example.com/login"

/-- What send_email produced and logged. -/
structure EmailLog where
  body : String
  sentLogged : Bool
  failureLogged : Bool
deriving DecidableEq

/-- Source function send_email (lines 98-121): the body is built from the
appointment lines, then the whole SMTP interaction sits in a try block
whose except clause catches every exception and logs the failure, so the
function returns normally on both outcomes. -/
def send_email (appointments : List String) (smtp : SmtpOutcome) :
    Except String EmailLog :=
  let body : String :=
    "Here are the available appointments:\n\n" ++
      String.intercalate "\n" appointments ++
      "\n\nYou can log in here:\n" ++ LOGIN_LINK
  match smtp with
  | .ok => .ok ⟨body, true, false⟩
  | .fail _ => .ok ⟨body, false, true⟩

/-- Observable outcome of one cycle: the final table rows and the
notification dispatched, if any. -/
structure RunResult where
  rows : List DBRow
  emailSent : Option (List String)
deriving DecidableEq

/-- One cycle of run_scraper after extraction (lines 178-208): run the
loop, then send one email with the accumulated lines when the loop
finished without an exception and found new appointments; an exception is
caught by the surrounding except block, logged, and suppresses the email,
while the rows committed so far remain. -/
def run_scraper_model (failAt : Option Nat) (smtp : SmtpOutcome)
    (batch : List RawAppt) (rows : List DBRow) : RunResult :=
  let out := processLoop failAt batch rows 0 []
  match out.err with
  | some _ => ⟨out.rows, none⟩
  | none =>
    if out.toSend.isEmpty then ⟨out.rows, none⟩
    else
      match send_email out.toSend smtp with
      | .ok _ => ⟨out.rows, some out.toSend⟩
      | .error _ => ⟨out.rows, some out.toSend⟩

theorem parseMinute_le {l r : List Char} {m : Nat} (h : parseMinute l = some (m, r)) :
    m ≤ 59 := by
  match l with
  | [] => simp [parseMinute] at h
  | [a] =>
    rw [parseMinute] at h
    split at h
    · rename_i ha
      simp only [digitChar, decide_eq_true_eq] at ha
      simp only [Option.some.injEq, Prod.mk.injEq] at h
      have hv : digitVal a ≤ 9 := by simp only [digitVal]; omega
      omega
    · simp at h
  | a :: b :: rest =>
    rw [parseMinute] at h
    split at h
    · rename_i ha
      obtain ⟨⟨ha1, ha2⟩, hb⟩ := ha
      simp only [digitChar, decide_eq_true_eq] at ha1 hb
      simp only [Option.some.injEq, Prod.mk.injEq] at h
      have hva : digitVal a ≤ 5 := by simp only [digitVal]; omega
      have hvb : digitVal b ≤ 9 := by simp only [digitVal]; omega
      omega
    · split at h
      · rename_i ha
        simp only [digitChar, decide_eq_true_eq] at ha
        simp only [Option.some.injEq, Prod.mk.injEq] at h
        have hv : digitVal a ≤ 9 := by simp only [digitVal]; omega
        omega
      · simp at h

theorem parse12Core_minute_le {l : List Char} {h12 m : Nat} {pm : Bool}
    (h : parse12Core l = some (h12, m, pm)) : m ≤ 59 := by
  rw [parse12Core] at h
  split at h
  · simp at h
  · split at h
    · split at h
      · simp at h
      · rename_i hmin
        split at h
        · simp at h
        · split at h
          · simp at h
          · simp only [Option.some.injEq, Prod.mk.injEq] at h
            obtain ⟨-, hm, -⟩ := h
            exact hm ▸ parseMinute_le hmin
    · simp at h

theorem strptime12_minute_le {s : String} {p : Nat × Nat} (h : strptime12 s = .ok p) :
    p.2 ≤ 59 := by
  rw [strptime12] at h
  split at h
  · simp at h
  · rename_i hcore
    simp only [Except.ok.injEq] at h
    subst h
    exact parse12Core_minute_le hcore

/-- C4: for every pair of well-formed 12-hour times, is_time_greater_or_equal
returns true exactly when the first time-of-day is greater than or equal to
the second, measured in minutes past midnight with the date part ignored;
at equal times the comparison is not strict, so ties return true. -/
theorem c4_comparison_is_time_of_day_ge (t1 t2 : String) (p1 p2 : Nat × Nat)
    (h1 : strptime12 t1 = .ok p1) (h2 : strptime12 t2 = .ok p2) :
    is_time_greater_or_equal t1 t2 =
      .ok (decide (timeOfDayMinutes p2 ≤ timeOfDayMinutes p1)) := by
  have hm1 := strptime12_minute_le h1
  have hm2 := strptime12_minute_le h2
  rw [is_time_greater_or_equal, h1, h2]
  change Except.ok (decide (p2.1 < p1.1 ∨ p1.1 = p2.1 ∧ p2.2 ≤ p1.2)) = _
  congr 1
  rw [decide_eq_decide]
  simp only [timeOfDayMinutes]
  omega

/-- C4 witness: at the concrete well-formed times 3:15 PM and 3:00 PM the
comparison theorem applies and yields true. -/
theorem c4_comparison_is_time_of_day_ge_witness :
    is_time_greater_or_equal "03:15 PM" "03:00 PM" =
      .ok (decide (timeOfDayMinutes (15, 0) ≤ timeOfDayMinutes (15, 15))) :=
  c4_comparison_is_time_of_day_ge "03:15 PM" "03:00 PM" (15, 15) (15, 0)
    (by decide) (by decide)

/-- C3: the 24-hour to 12-hour conversion maps 0000 to 12:00 AM, 1200 to
12:00 PM, 1530 to 3:30 PM and 0930 to 9:30 AM, so hour 0 and hour 12 both
render as 12 with the correct meridiem. -/
theorem c3_convert_24hr_to_12hr_boundaries :
    convert_24hr_to_12hr "0000" = .ok "12:00 AM" ∧
    convert_24hr_to_12hr "1200" = .ok "12:00 PM" ∧
    convert_24hr_to_12hr "1530" = .ok "3:30 PM" ∧
    convert_24hr_to_12hr "0930" = .ok "9:30 AM" := by
  refine ⟨?_, ?_, ?_, ?_⟩ <;> decide

/-- Record A of the end-to-end scenario: a Monday slot starting 1600. -/
def apptA : RawAppt := ⟨"Mon, Jan 6 slot A", "1600", "1700", "Smith"⟩

/-- Record B of the end-to-end scenario: a Saturday slot starting 0800. -/
def apptB : RawAppt := ⟨"Sat, Jan 11 slot B", "0800", "0900", "Jones"⟩

/-- Record C of the end-to-end scenario: a Sunday slot starting 1000. -/
def apptC : RawAppt := ⟨"Sun, Jan 12 slot C", "1000", "1100", "Lee"⟩

/-- The three-record batch of the end-to-end scenario. -/
def scenarioBatch : List RawAppt := [apptA, apptB, apptC]

example : dayOfWeekOf apptA.appointment_string = "Mon" := by decide
example : normalizeRecord apptA = .ok ("4:00 PM", "5:00 PM", false) := by decide
example : normalizeRecord apptB = .ok ("8:00 AM", "9:00 AM", false) := by decide
example : normalizeRecord apptC = .ok ("10:00 AM", "11:00 AM", true) := by decide
example :
    processLoop none scenarioBatch [] 0 [] =
      ⟨[⟨"Sun, Jan 12 slot C", "10:00 AM", "11:00 AM", "Lee", 1⟩],
       ["Sun, Jan 12 slot C | Instructor: Lee"], none⟩ := by decide

@[simp]
theorem storeFails_none (ops : Nat) : storeFails none ops = false := rfl

theorem containsKey_append (rows rows2 : List DBRow) (k : String) :
    containsKey (rows ++ rows2) k = (containsKey rows k || containsKey rows2 k) := by
  simp [containsKey, List.any_append]

theorem containsKey_insertOrIgnore_of (rows : List DBRow) (row : DBRow) (k : String)
    (h : containsKey rows k = true) : containsKey (insertOrIgnore rows row) k = true := by
  rw [insertOrIgnore]
  split
  · exact h
  · rw [containsKey_append, h, Bool.true_or]

theorem containsKey_insertOrIgnore_self (rows : List DBRow) (row : DBRow) :
    containsKey (insertOrIgnore rows row) row.appointment_string = true := by
  rw [insertOrIgnore]
  split
  · assumption
  · rw [containsKey_append]
    simp [containsKey]

theorem mem_insertOrIgnore {rows : List DBRow} {nr row : DBRow}
    (h : row ∈ insertOrIgnore rows nr) : row ∈ rows ∨ row = nr := by
  rw [insertOrIgnore] at h
  split at h
  · exact Or.inl h
  · simpa using h

/-- With a never-failing store the operation counter does not influence the
loop outcome. -/
theorem processLoop_none_ops (batch : List RawAppt) :
    ∀ (rows : List DBRow) (ops ops' : Nat) (acc : List String),
      processLoop none batch rows ops acc = processLoop none batch rows ops' acc := by
  induction batch with
  | nil => intro rows ops ops' acc; rfl
  | cons r rest ih =>
    intro rows ops ops' acc
    cases hn : normalizeRecord r with
    | error e => simp only [processLoop, hn]
    | ok p =>
      obtain ⟨stime, etime, okb⟩ := p
      cases okb with
      | false => simp only [processLoop, hn]; exact ih rows ops ops' acc
      | true =>
        simp only [processLoop, hn, storeFails_none, Bool.false_eq_true, if_true, if_false,
          ite_false]
        cases hc : containsKey rows r.appointment_string with
        | true => simp only [if_true]; exact ih rows (ops + 1) (ops' + 1) acc
        | false =>
          simp only [Bool.false_eq_true, if_false]
          exact ih _ (ops + 2) (ops' + 2) _

/-- Step equation: a record whose normalization raises stops the loop. -/
theorem processLoop_cons_err {r : RawAppt} {e : String}
    (hn : normalizeRecord r = .error e) (failAt : Option Nat) (rest : List RawAppt)
    (rows : List DBRow) (ops : Nat) (acc : List String) :
    processLoop failAt (r :: rest) rows ops acc = ⟨rows, acc, some (.malformedTime e)⟩ := by
  rw [processLoop, hn]

/-- Step equation: a record that fails the time filter is skipped. -/
theorem processLoop_cons_reject {r : RawAppt} {s e : String}
    (hn : normalizeRecord r = .ok (s, e, false)) (failAt : Option Nat)
    (rest : List RawAppt) (rows : List DBRow) (ops : Nat) (acc : List String) :
    processLoop failAt (r :: rest) rows ops acc = processLoop failAt rest rows ops acc := by
  rw [processLoop, hn]; rfl

/-- Step equation: the store fails on the SELECT for a passing record. -/
theorem processLoop_cons_fail_select {failAt : Option Nat} {ops : Nat}
    (hf : storeFails failAt ops = true) {r : RawAppt} {s e : String}
    (hn : normalizeRecord r = .ok (s, e, true)) (rest : List RawAppt)
    (rows : List DBRow) (acc : List String) :
    processLoop failAt (r :: rest) rows ops acc = ⟨rows, acc, some .storeUnavailable⟩ := by
  rw [processLoop, hn]; simp [hf]

/-- Step equation: a passing record whose key is already in the table is
skipped after the SELECT. -/
theorem processLoop_cons_seen {failAt : Option Nat} {ops : Nat} {rows : List DBRow}
    {r : RawAppt} (hf : storeFails failAt ops = false)
    (hc : containsKey rows r.appointment_string = true) {s e : String}
    (hn : normalizeRecord r = .ok (s, e, true)) (rest : List RawAppt) (acc : List String) :
    processLoop failAt (r :: rest) rows ops acc = processLoop failAt rest rows (ops + 1) acc := by
  rw [processLoop, hn]; simp [hf, hc]

/-- Step equation: the store fails on the INSERT of a novel passing record,
after its line was appended to the notification list. -/
theorem processLoop_cons_fail_insert {failAt : Option Nat} {ops : Nat} {rows : List DBRow}
    {r : RawAppt} (hf : storeFails failAt ops = false)
    (hc : containsKey rows r.appointment_string = false)
    (hf2 : storeFails failAt (ops + 1) = true) {s e : String}
    (hn : normalizeRecord r = .ok (s, e, true)) (rest : List RawAppt) (acc : List String) :
    processLoop failAt (r :: rest) rows ops acc =
      ⟨rows, acc ++ [apptLine r], some .storeUnavailable⟩ := by
  rw [processLoop, hn]; simp [hf, hc, hf2]

/-- Step equation: a novel passing record is appended to the notification
list and inserted with sent_email 1. -/
theorem processLoop_cons_insert {failAt : Option Nat} {ops : Nat} {rows : List DBRow}
    {r : RawAppt} (hf : storeFails failAt ops = false)
    (hc : containsKey rows r.appointment_string = false)
    (hf2 : storeFails failAt (ops + 1) = false) {s e : String}
    (hn : normalizeRecord r = .ok (s, e, true)) (rest : List RawAppt) (acc : List String) :
    processLoop failAt (r :: rest) rows ops acc =
      processLoop failAt rest
        (insertOrIgnore rows ⟨r.appointment_string, s, e, r.data_instructor, 1⟩)
        (ops + 2) (acc ++ [apptLine r]) := by
  rw [processLoop, hn]; simp [hf, hc, hf2]

/-- Keys present in the table stay present through the loop: rows are only
ever appended. -/
theorem processLoop_contains_mono (failAt : Option Nat) (batch : List RawAppt) :
    ∀ (rows : List DBRow) (ops : Nat) (acc : List String) (k : String),
      containsKey rows k = true →
      containsKey (processLoop failAt batch rows ops acc).rows k = true := by
  induction batch with
  | nil => intro rows ops acc k h; exact h
  | cons r rest ih =>
    intro rows ops acc k h
    cases hn : normalizeRecord r with
    | error e => rw [processLoop_cons_err hn]; exact h
    | ok p =>
      obtain ⟨s, e, okb⟩ := p
      cases okb with
      | false => rw [processLoop_cons_reject hn]; exact ih rows ops acc k h
      | true =>
        cases hf : storeFails failAt ops with
        | true => rw [processLoop_cons_fail_select hf hn]; exact h
        | false =>
          cases hc : containsKey rows r.appointment_string with
          | true => rw [processLoop_cons_seen hf hc hn]; exact ih rows (ops + 1) acc k h
          | false =>
            cases hf2 : storeFails failAt (ops + 1) with
            | true => rw [processLoop_cons_fail_insert hf hc hf2 hn]; exact h
            | false =>
              rw [processLoop_cons_insert hf hc hf2 hn]
              exact ih _ (ops + 2) _ k (containsKey_insertOrIgnore_of _ _ _ h)

/-- If the loop finished without an exception, every record of the batch
passed normalization. -/
theorem processLoop_err_none_normalize (failAt : Option Nat) (batch : List RawAppt) :
    ∀ (rows : List DBRow) (ops : Nat) (acc : List String),
      (processLoop failAt batch rows ops acc).err = none →
      ∀ r ∈ batch, ∃ p, normalizeRecord r = .ok p := by
  induction batch with
  | nil => intro rows ops acc _ r hr; exact absurd hr (List.not_mem_nil r)
  | cons r0 rest ih =>
    intro rows ops acc herr r hr
    cases hn : normalizeRecord r0 with
    | error e => rw [processLoop_cons_err hn] at herr; simp at herr
    | ok p =>
      have hr0 : ∃ q, normalizeRecord r0 = .ok q := ⟨p, hn⟩
      obtain ⟨s, e, okb⟩ := p
      rcases List.mem_cons.mp hr with hreq | hr
      · exact hreq ▸ hr0
      cases okb with
      | false =>
        rw [processLoop_cons_reject hn] at herr
        exact ih rows ops acc herr r hr
      | true =>
        cases hf : storeFails failAt ops with
        | true => rw [processLoop_cons_fail_select hf hn] at herr; simp at herr
        | false =>
          cases hc : containsKey rows r0.appointment_string with
          | true =>
            rw [processLoop_cons_seen hf hc hn] at herr
            exact ih rows (ops + 1) acc herr r hr
          | false =>
            cases hf2 : storeFails failAt (ops + 1) with
            | true => rw [processLoop_cons_fail_insert hf hc hf2 hn] at herr; simp at herr
            | false =>
              rw [processLoop_cons_insert hf hc hf2 hn] at herr
              exact ih _ (ops + 2) _ herr r hr

/-- If the loop finished without an exception, every batch record that
passes the time filter ends with its key in the final table. -/
theorem processLoop_accepted_seen (failAt : Option Nat) (batch : List RawAppt) :
    ∀ (rows : List DBRow) (ops : Nat) (acc : List String),
      (processLoop failAt batch rows ops acc).err = none →
      ∀ r ∈ batch, ∀ s e, normalizeRecord r = .ok (s, e, true) →
      containsKey (processLoop failAt batch rows ops acc).rows r.appointment_string = true := by
  induction batch with
  | nil => intro rows ops acc _ r hr; exact absurd hr (List.not_mem_nil r)
  | cons r0 rest ih =>
    intro rows ops acc herr r hr s e hn
    rcases List.mem_cons.mp hr with hreq | hr
    · subst hreq
      cases hf : storeFails failAt ops with
      | true => rw [processLoop_cons_fail_select hf hn] at herr; simp at herr
      | false =>
        cases hc : containsKey rows r.appointment_string with
        | true =>
          rw [processLoop_cons_seen hf hc hn] at herr ⊢
          exact processLoop_contains_mono failAt rest rows (ops + 1) acc _ hc
        | false =>
          cases hf2 : storeFails failAt (ops + 1) with
          | true => rw [processLoop_cons_fail_insert hf hc hf2 hn] at herr; simp at herr
          | false =>
            rw [processLoop_cons_insert hf hc hf2 hn]
            exact processLoop_contains_mono failAt rest _ _ _ _
              (containsKey_insertOrIgnore_self rows _)
    · cases hn0 : normalizeRecord r0 with
      | error e0 => rw [processLoop_cons_err hn0] at herr; simp at herr
      | ok p =>
        obtain ⟨s0, e0, okb⟩ := p
        cases okb with
        | false =>
          rw [processLoop_cons_reject hn0] at herr ⊢
          exact ih rows ops acc herr r hr s e hn
        | true =>
          cases hf : storeFails failAt ops with
          | true => rw [processLoop_cons_fail_select hf hn0] at herr; simp at herr
          | false =>
            cases hc : containsKey rows r0.appointment_string with
            | true =>
              rw [processLoop_cons_seen hf hc hn0] at herr ⊢
              exact ih rows (ops + 1) acc herr r hr s e hn
            | false =>
              cases hf2 : storeFails failAt (ops + 1) with
              | true => rw [processLoop_cons_fail_insert hf hc hf2 hn0] at herr; simp at herr
              | false =>
                rw [processLoop_cons_insert hf hc hf2 hn0] at herr ⊢
                exact ih _ (ops + 2) _ herr r hr s e hn

/-- If every record of the batch normalizes and every passing record is
already in the table, the loop is a no-op with a working store. -/
theorem processLoop_all_seen (batch : List RawAppt) :
    ∀ (rows : List DBRow) (ops : Nat) (acc : List String),
      (∀ r ∈ batch, ∃ s e okb, normalizeRecord r = .ok (s, e, okb) ∧
        (okb = true → containsKey rows r.appointment_string = true)) →
      processLoop none batch rows ops acc = ⟨rows, acc, none⟩ := by
  induction batch with
  | nil => intro rows ops acc _; rfl
  | cons r0 rest ih =>
    intro rows ops acc hall
    obtain ⟨s, e, okb, hn, hseen⟩ := hall r0 (List.mem_cons_self r0 rest)
    have hrest : ∀ r ∈ rest, ∃ s e okb, normalizeRecord r = .ok (s, e, okb) ∧
        (okb = true → containsKey rows r.appointment_string = true) :=
      fun r hr => hall r (List.mem_cons_of_mem r0 hr)
    cases okb with
    | false => rw [processLoop_cons_reject hn]; exact ih rows ops acc hrest
    | true =>
      rw [processLoop_cons_seen (storeFails_none ops) (hseen rfl) hn]
      exact ih rows (ops + 1) acc hrest

/-- The notification lines accumulated by the loop extend the accumulator
with a subsequence of the batch lines, in batch order. -/
theorem processLoop_toSend_sublist (failAt : Option Nat) (batch : List RawAppt) :
    ∀ (rows : List DBRow) (ops : Nat) (acc : List String),
      ∃ t, (processLoop failAt batch rows ops acc).toSend = acc ++ t ∧
        t.Sublist (batch.map apptLine) := by
  induction batch with
  | nil =>
    intro rows ops acc
    exact ⟨[], by simp [processLoop], List.nil_sublist _⟩
  | cons r0 rest ih =>
    intro rows ops acc
    cases hn : normalizeRecord r0 with
    | error e =>
      rw [processLoop_cons_err hn]
      exact ⟨[], by simp, List.nil_sublist _⟩
    | ok p =>
      obtain ⟨s, e, okb⟩ := p
      cases okb with
      | false =>
        rw [processLoop_cons_reject hn]
        obtain ⟨t, ht, hsub⟩ := ih rows ops acc
        exact ⟨t, ht, List.sublist_cons_of_sublist _ hsub⟩
      | true =>
        cases hf : storeFails failAt ops with
        | true =>
          rw [processLoop_cons_fail_select hf hn]
          exact ⟨[], by simp, List.nil_sublist _⟩
        | false =>
          cases hc : containsKey rows r0.appointment_string with
          | true =>
            rw [processLoop_cons_seen hf hc hn]
            obtain ⟨t, ht, hsub⟩ := ih rows (ops + 1) acc
            exact ⟨t, ht, List.sublist_cons_of_sublist _ hsub⟩
          | false =>
            cases hf2 : storeFails failAt (ops + 1) with
            | true =>
              rw [processLoop_cons_fail_insert hf hc hf2 hn]
              refine ⟨[apptLine r0], rfl, ?_⟩
              exact List.Sublist.cons₂ (apptLine r0) (List.nil_sublist _)
            | false =>
              rw [processLoop_cons_insert hf hc hf2 hn]
              obtain ⟨t, ht, hsub⟩ := ih
                (insertOrIgnore rows ⟨r0.appointment_string, s, e, r0.data_instructor, 1⟩)
                (ops + 2) (acc ++ [apptLine r0])
              refine ⟨apptLine r0 :: t, by simpa using ht, ?_⟩
              exact List.Sublist.cons₂ (apptLine r0) hsub

/-- Whatever the failure schedule does, the rows the loop leaves behind are
the rows a working store would produce on some prefix of the batch: each
insert is committed on its own, and a failure loses nothing but the
remainder. -/
theorem processLoop_rows_prefix (failAt : Option Nat) (batch : List RawAppt) :
    ∀ (rows : List DBRow) (ops : Nat) (acc : List String),
      ∃ k, (processLoop failAt batch rows ops acc).rows =
        (processLoop none (batch.take k) rows ops acc).rows := by
  induction batch with
  | nil => intro rows ops acc; exact ⟨0, rfl⟩
  | cons r0 rest ih =>
    intro rows ops acc
    cases hn : normalizeRecord r0 with
    | error e =>
      refine ⟨0, ?_⟩
      rw [processLoop_cons_err hn]
      rfl
    | ok p =>
      obtain ⟨s, e, okb⟩ := p
      cases okb with
      | false =>
        obtain ⟨k, hk⟩ := ih rows ops acc
        refine ⟨k + 1, ?_⟩
        rw [processLoop_cons_reject hn, List.take_succ_cons,
          processLoop_cons_reject hn, hk]
      | true =>
        cases hf : storeFails failAt ops with
        | true =>
          refine ⟨0, ?_⟩
          rw [processLoop_cons_fail_select hf hn]
          rfl
        | false =>
          cases hc : containsKey rows r0.appointment_string with
          | true =>
            obtain ⟨k, hk⟩ := ih rows (ops + 1) acc
            refine ⟨k + 1, ?_⟩
            rw [processLoop_cons_seen hf hc hn, List.take_succ_cons,
              processLoop_cons_seen (storeFails_none ops) hc hn, hk]
          | false =>
            cases hf2 : storeFails failAt (ops + 1) with
            | true =>
              refine ⟨0, ?_⟩
              rw [processLoop_cons_fail_insert hf hc hf2 hn]
              rfl
            | false =>
              obtain ⟨k, hk⟩ := ih
                (insertOrIgnore rows ⟨r0.appointment_string, s, e, r0.data_instructor, 1⟩)
                (ops + 2) (acc ++ [apptLine r0])
              refine ⟨k + 1, ?_⟩
              rw [processLoop_cons_insert hf hc hf2 hn, List.take_succ_cons,
                processLoop_cons_insert (storeFails_none ops) hc (storeFails_none (ops + 1)) hn,
                hk]

/-- Every row of the final table was either already there or was inserted
by the loop with sent_email set to 1. -/
theorem processLoop_rows_mem (failAt : Option Nat) (batch : List RawAppt) :
    ∀ (rows : List DBRow) (ops : Nat) (acc : List String) (row : DBRow),
      row ∈ (processLoop failAt batch rows ops acc).rows →
      row ∈ rows ∨ row.sent_email = 1 := by
  induction batch with
  | nil => intro rows ops acc row h; exact Or.inl h
  | cons r0 rest ih =>
    intro rows ops acc row h
    cases hn : normalizeRecord r0 with
    | error e => rw [processLoop_cons_err hn] at h; exact Or.inl h
    | ok p =>
      obtain ⟨s, e, okb⟩ := p
      cases okb with
      | false =>
        rw [processLoop_cons_reject hn] at h
        exact ih rows ops acc row h
      | true =>
        cases hf : storeFails failAt ops with
        | true => rw [processLoop_cons_fail_select hf hn] at h; exact Or.inl h
        | false =>
          cases hc : containsKey rows r0.appointment_string with
          | true =>
            rw [processLoop_cons_seen hf hc hn] at h
            exact ih rows (ops + 1) acc row h
          | false =>
            cases hf2 : storeFails failAt (ops + 1) with
            | true => rw [processLoop_cons_fail_insert hf hc hf2 hn] at h; exact Or.inl h
            | false =>
              rw [processLoop_cons_insert hf hc hf2 hn] at h
              rcases ih _ (ops + 2) _ row h with hmem | hone
              · rcases mem_insertOrIgnore hmem with hmem | hrow
                · exact Or.inl hmem
                · subst hrow; exact Or.inr rfl
              · exact Or.inr hone

/-- With a working store, a record whose key is already in the table
contributes nothing: the loop behaves as if it were absent from the
batch. -/
theorem processLoop_skip_seen {r2 : RawAppt} {s2 e2 : String} {okb2 : Bool}
    (hn2 : normalizeRecord r2 = .ok (s2, e2, okb2)) (l2 l3 : List RawAppt) :
    ∀ (rows : List DBRow) (ops : Nat) (acc : List String),
      containsKey rows r2.appointment_string = true →
      processLoop none (l2 ++ r2 :: l3) rows ops acc =
        processLoop none (l2 ++ l3) rows ops acc := by
  induction l2 with
  | nil =>
    intro rows ops acc hseen
    simp only [List.nil_append]
    cases okb2 with
    | false => rw [processLoop_cons_reject hn2]
    | true =>
      rw [processLoop_cons_seen (storeFails_none ops) hseen hn2]
      exact processLoop_none_ops l3 rows (ops + 1) ops acc
  | cons r0 t ih =>
    intro rows ops acc hseen
    simp only [List.cons_append]
    cases hn : normalizeRecord r0 with
    | error e => rw [processLoop_cons_err hn, processLoop_cons_err hn]
    | ok p =>
      obtain ⟨s, e, okb⟩ := p
      cases okb with
      | false =>
        rw [processLoop_cons_reject hn, processLoop_cons_reject hn]
        exact ih rows ops acc hseen
      | true =>
        cases hc : containsKey rows r0.appointment_string with
        | true =>
          rw [processLoop_cons_seen (storeFails_none ops) hc hn,
            processLoop_cons_seen (storeFails_none ops) hc hn]
          exact ih rows (ops + 1) acc hseen
        | false =>
          rw [processLoop_cons_insert (storeFails_none ops) hc (storeFails_none (ops + 1)) hn,
            processLoop_cons_insert (storeFails_none ops) hc (storeFails_none (ops + 1)) hn]
          exact ih _ (ops + 2) _ (containsKey_insertOrIgnore_of _ _ _ hseen)
example : strptime12 "03:00 PM" = .ok (15, 0) := by decide
example : strptime12 "12:05 AM" = .ok (0, 5) := by decide
example : strptime12 "12:05 PM" = .ok (12, 5) := by decide
example : strptime12 "4:00 PM" = .ok (16, 0) := by decide
example : (strptime12 "13:00 PM").toBool = false := by decide
example : convert_24hr_to_12hr "0000" = .ok "12:00 AM" := by decide
example : convert_24hr_to_12hr "1200" = .ok "12:00 PM" := by decide
example : convert_24hr_to_12hr "1530" = .ok "3:30 PM" := by decide
example : convert_24hr_to_12hr "0930" = .ok "9:30 AM" := by decide
example : is_time_greater_or_equal "4:00 PM" "04:30 PM" = .ok false := by decide

/-- With an exception recorded, the cycle sends no email. -/
theorem run_scraper_model_emailSent_err (failAt : Option Nat) (smtp : SmtpOutcome)
    (batch : List RawAppt) (rows : List DBRow) (e : PyError)
    (h : (processLoop failAt batch rows 0 []).err = some e) :
    (run_scraper_model failAt smtp batch rows).emailSent = none := by
  simp [run_scraper_model, h]

/-- The table a cycle leaves is the table the loop leaves: the email step
never touches it. -/
theorem run_scraper_model_rows (failAt : Option Nat) (smtp : SmtpOutcome)
    (batch : List RawAppt) (rows : List DBRow) :
    (run_scraper_model failAt smtp batch rows).rows =
      (processLoop failAt batch rows 0 []).rows := by
  simp only [run_scraper_model]
  split
  · rfl
  · split
    · rfl
    · split <;> rfl

/-- C1 counterexample: against the empty store, the scenario pipeline does
not accept record A: its converted start 4:00 PM is below the 4:30 PM
weekday cutoff, so the accepted set is not the claimed one containing A. -/
theorem c1_counterexample :
    (processLoop none scenarioBatch [] 0 []).err = none ∧
    apptLine apptA ∉ (processLoop none scenarioBatch [] 0 []).toSend := by
  refine ⟨by decide, by decide⟩

/-- C1 amended: with weekday cutoff 4:30 PM and weekend cutoff 9:00 AM,
the pipeline on the empty store accepts exactly record C of the scenario
batch: B is rejected because its weekend start 8:00 AM is before the
9:00 AM weekend cutoff, and A is rejected because its weekday start
4:00 PM is before the 4:30 PM weekday cutoff. -/
theorem c1_end_to_end_accepts_only_slot_c :
    run_scraper_model none .ok scenarioBatch [] =
      ⟨[⟨"Sun, Jan 12 slot C", "10:00 AM", "11:00 AM", "Lee", 1⟩],
       some ["Sun, Jan 12 slot C | Instructor: Lee"]⟩ := by decide

/-- A record whose start time has a malformed hour field. -/
def apptBad : RawAppt := ⟨"Mon, Jan 13 slot D", "XX00", "1700", "Kim"⟩

/-- A well-formed Monday record that passes the weekday cutoff. -/
def apptGood : RawAppt := ⟨"Mon, Jan 13 slot E", "1700", "1800", "Kim"⟩

/-- C2 counterexample: record E is accepted when alone in a batch, but
when the malformed record D precedes it the whole cycle aborts: E is
never processed, nothing is inserted and no email is sent, so one bad
record does abort the remaining records of the batch. -/
theorem c2_counterexample :
    run_scraper_model none .ok [apptBad, apptGood] [] = ⟨[], none⟩ ∧
    run_scraper_model none .ok [apptGood] [] =
      ⟨[⟨"Mon, Jan 13 slot E", "5:00 PM", "6:00 PM", "Kim", 1⟩],
       some ["Mon, Jan 13 slot E | Instructor: Kim"]⟩ := by
  refine ⟨by decide, by decide⟩

/-- C2 amended: a malformed time string makes the conversion raise a
ValueError that stops the loop at that record: the records after it are
not processed, the table keeps only what was committed before, and the
cycle sends no email. The error is caught and logged once at cycle level,
not per record, and no dedicated MalformedTimeError class exists. -/
theorem c2_malformed_aborts_cycle (r : RawAppt) (rest : List RawAppt)
    (rows : List DBRow) (smtp : SmtpOutcome) (e : String)
    (h : convert_24hr_to_12hr r.data_starttime = .error e) :
    processLoop none (r :: rest) rows 0 [] = ⟨rows, [], some (.malformedTime e)⟩ ∧
    run_scraper_model none smtp (r :: rest) rows = ⟨rows, none⟩ := by
  have hn : normalizeRecord r = .error e := by rw [normalizeRecord, h]
  have h1 := processLoop_cons_err hn none rest rows 0 []
  refine ⟨h1, ?_⟩
  simp [run_scraper_model, h1]

/-- C2 witness: the amended theorem applied to the concrete malformed
record D followed by the well-formed record E. -/
theorem c2_malformed_aborts_cycle_witness :
    convert_24hr_to_12hr apptBad.data_starttime = .error "invalid literal for int" ∧
    run_scraper_model none .ok (apptBad :: [apptGood]) [] = ⟨[], none⟩ :=
  ⟨by decide,
   (c2_malformed_aborts_cycle apptBad [apptGood] [] .ok "invalid literal for int"
     (by decide)).2⟩

/-- C5: if a cycle completes without an exception and accepts a non-empty
list, running the identical batch again against the resulting table
accepts nothing and dispatches no email: every previously accepted record
is found in the table and every other record is rejected again. -/
theorem c5_second_run_empty (batch : List RawAppt) (rows0 : List DBRow)
    (smtp : SmtpOutcome)
    (herr : (processLoop none batch rows0 0 []).err = none)
    (_hne : (processLoop none batch rows0 0 []).toSend ≠ []) :
    processLoop none batch (processLoop none batch rows0 0 []).rows 0 [] =
      ⟨(processLoop none batch rows0 0 []).rows, [], none⟩ ∧
    (run_scraper_model none smtp batch
      (processLoop none batch rows0 0 []).rows).emailSent = none := by
  have hsecond : processLoop none batch (processLoop none batch rows0 0 []).rows 0 [] =
      ⟨(processLoop none batch rows0 0 []).rows, [], none⟩ := by
    apply processLoop_all_seen
    intro r hr
    obtain ⟨⟨s, e, okb⟩, hn⟩ :=
      processLoop_err_none_normalize none batch rows0 0 [] herr r hr
    refine ⟨s, e, okb, hn, fun hok => ?_⟩
    subst hok
    exact processLoop_accepted_seen none batch rows0 0 [] herr r hr s e hn
  refine ⟨hsecond, ?_⟩
  simp [run_scraper_model, hsecond]

/-- C5 witness: the idempotence theorem applied to the one-record batch
holding record C against the empty store. -/
theorem c5_second_run_empty_witness :
    (processLoop none [apptC] [] 0 []).err = none ∧
    (processLoop none [apptC] [] 0 []).toSend ≠ [] ∧
    processLoop none [apptC] (processLoop none [apptC] [] 0 []).rows 0 [] =
      ⟨(processLoop none [apptC] [] 0 []).rows, [], none⟩ :=
  ⟨by decide, by decide, (c5_second_run_empty [apptC] [] .ok (by decide) (by decide)).1⟩

/-- C6: when a batch contains a passing record and a later record with the
same identifier that also parses, the later record contributes nothing to
a run with a working store: the cycle outcome equals the one of the batch
with the duplicate removed, so exactly the first occurrence is accepted. -/
theorem c6_duplicate_second_occurrence_dropped
    (l1 l2 l3 : List RawAppt) (r1 r2 : RawAppt) (s1 e1 s2 e2 : String) (okb2 : Bool)
    (rows : List DBRow)
    (hid : r2.appointment_string = r1.appointment_string)
    (h1 : normalizeRecord r1 = .ok (s1, e1, true))
    (h2 : normalizeRecord r2 = .ok (s2, e2, okb2)) :
    processLoop none (l1 ++ r1 :: (l2 ++ r2 :: l3)) rows 0 [] =
      processLoop none (l1 ++ r1 :: (l2 ++ l3)) rows 0 [] := by
  suffices haux : ∀ (rows : List DBRow) (ops : Nat) (acc : List String),
      processLoop none (l1 ++ r1 :: (l2 ++ r2 :: l3)) rows ops acc =
        processLoop none (l1 ++ r1 :: (l2 ++ l3)) rows ops acc by
    exact haux rows 0 []
  induction l1 with
  | nil =>
    intro rows ops acc
    simp only [List.nil_append]
    cases hc : containsKey rows r1.appointment_string with
    | true =>
      rw [processLoop_cons_seen (storeFails_none ops) hc h1,
        processLoop_cons_seen (storeFails_none ops) hc h1]
      exact processLoop_skip_seen h2 l2 l3 rows (ops + 1) acc (hid ▸ hc)
    | false =>
      rw [processLoop_cons_insert (storeFails_none ops) hc (storeFails_none (ops + 1)) h1,
        processLoop_cons_insert (storeFails_none ops) hc (storeFails_none (ops + 1)) h1]
      apply processLoop_skip_seen h2 l2 l3 _ (ops + 2) _
      rw [hid]
      exact containsKey_insertOrIgnore_self rows _
  | cons r0 t ih =>
    intro rows ops acc
    simp only [List.cons_append]
    cases hn : normalizeRecord r0 with
    | error e => rw [processLoop_cons_err hn, processLoop_cons_err hn]
    | ok p =>
      obtain ⟨s, e, okb⟩ := p
      cases okb with
      | false =>
        rw [processLoop_cons_reject hn, processLoop_cons_reject hn]
        exact ih rows ops acc
      | true =>
        cases hc : containsKey rows r0.appointment_string with
        | true =>
          rw [processLoop_cons_seen (storeFails_none ops) hc hn,
            processLoop_cons_seen (storeFails_none ops) hc hn]
          exact ih rows (ops + 1) acc
        | false =>
          rw [processLoop_cons_insert (storeFails_none ops) hc (storeFails_none (ops + 1)) hn,
            processLoop_cons_insert (storeFails_none ops) hc (storeFails_none (ops + 1)) hn]
          exact ih _ (ops + 2) _

/-- A second scrape of slot C under the same identifier but another
instructor label. -/
def apptCdup : RawAppt := ⟨"Sun, Jan 12 slot C", "1000", "1100", "Moss"⟩

/-- C6 witness: the duplicate theorem applied to the concrete batch with
slot C scraped twice. -/
theorem c6_duplicate_second_occurrence_dropped_witness :
    apptCdup.appointment_string = apptC.appointment_string ∧
    processLoop none [apptC, apptCdup] [] 0 [] = processLoop none [apptC] [] 0 [] :=
  ⟨by decide,
   c6_duplicate_second_occurrence_dropped [] [] [] apptC apptCdup
     "10:00 AM" "11:00 AM" "10:00 AM" "11:00 AM" true [] (by decide) (by decide) (by decide)⟩

/-- C7: the accepted-and-novel lines of a cycle form a subsequence of the
batch lines taken in input order, so the output preserves the relative
input order of the accepted records. -/
theorem c7_output_preserves_input_order (failAt : Option Nat) (batch : List RawAppt)
    (rows : List DBRow) :
    ((processLoop failAt batch rows 0 []).toSend).Sublist (batch.map apptLine) := by
  obtain ⟨t, ht, hsub⟩ := processLoop_toSend_sublist failAt batch rows 0 []
  rw [ht]
  simpa using hsub

/-- C8: if the store fails mid-batch, the cycle dispatches no email at
all, and the table ends exactly as a working store would leave it after
some prefix of the batch: no record is marked seen beyond the inserts
committed before the failure. -/
theorem c8_store_failure_no_partial_email (failAt : Option Nat) (smtp : SmtpOutcome)
    (batch : List RawAppt) (rows : List DBRow)
    (h : (processLoop failAt batch rows 0 []).err = some .storeUnavailable) :
    (run_scraper_model failAt smtp batch rows).emailSent = none ∧
    ∃ k, (run_scraper_model failAt smtp batch rows).rows =
      (processLoop none (batch.take k) rows 0 []).rows := by
  refine ⟨run_scraper_model_emailSent_err failAt smtp batch rows _ h, ?_⟩
  rw [run_scraper_model_rows]
  exact processLoop_rows_prefix failAt batch rows 0 []

/-- C8 witness: the store-failure theorem applied to a store failing on
its very first operation with the one-record batch holding record C. -/
theorem c8_store_failure_no_partial_email_witness :
    (processLoop (some 0) [apptC] [] 0 []).err = some .storeUnavailable ∧
    ((run_scraper_model (some 0) .ok [apptC] []).emailSent = none ∧
      ∃ k, (run_scraper_model (some 0) .ok [apptC] []).rows =
        (processLoop none (List.take k [apptC]) [] 0 []).rows) :=
  ⟨by decide, c8_store_failure_no_partial_email (some 0) .ok [apptC] [] (by decide)⟩

/-- C9 counterexample: with the good record E followed by the malformed
record D, the cycle commits the row for E with sent_email already 1 and
then aborts, so a persisted row is marked notified although no
notification was dispatched. -/
theorem c9_counterexample :
    (run_scraper_model none .ok [apptGood, apptBad] []).emailSent = none ∧
    (⟨"Mon, Jan 13 slot E", "5:00 PM", "6:00 PM", "Kim", 1⟩ : DBRow) ∈
      (run_scraper_model none .ok [apptGood, apptBad] []).rows := by
  refine ⟨by decide, by decide⟩

/-- C9 amended: the sent_email flag is set at insert time, not at dispatch
time: every row the loop ever adds to the table carries sent_email 1 from
the moment it is committed, whether or not a notification follows. -/
theorem c9_sent_email_set_at_insert (failAt : Option Nat) (batch : List RawAppt)
    (rows0 : List DBRow) (row : DBRow)
    (h : row ∈ (processLoop failAt batch rows0 0 []).rows) :
    row ∈ rows0 ∨ row.sent_email = 1 :=
  processLoop_rows_mem failAt batch rows0 0 [] row h

/-- C9 witness: the amended theorem applied to the row inserted for record
C of the scenario batch. -/
theorem c9_sent_email_set_at_insert_witness :
    (⟨"Sun, Jan 12 slot C", "10:00 AM", "11:00 AM", "Lee", 1⟩ : DBRow) ∈
      (processLoop none scenarioBatch [] 0 []).rows ∧
    ((⟨"Sun, Jan 12 slot C", "10:00 AM", "11:00 AM", "Lee", 1⟩ : DBRow) ∈ ([] : List DBRow) ∨
      (⟨"Sun, Jan 12 slot C", "10:00 AM", "11:00 AM", "Lee", 1⟩ : DBRow).sent_email = 1) :=
  ⟨by decide, c9_sent_email_set_at_insert none scenarioBatch [] _ (by decide)⟩

/-- C10: send_email returns normally whatever the SMTP session does,
because the try block catches every exception and only logs it; and the
delivery outcome has no effect on the cycle result, so a failed delivery
neither alters control flow nor rolls back table state. -/
theorem c10_send_email_never_raises (apps : List String) (smtp smtp' : SmtpOutcome)
    (failAt : Option Nat) (batch : List RawAppt) (rows : List DBRow) :
    (∃ log, send_email apps smtp = .ok log) ∧
    run_scraper_model failAt smtp batch rows = run_scraper_model failAt smtp' batch rows := by
  constructor
  · cases smtp with
    | ok => exact ⟨_, rfl⟩
    | fail m => exact ⟨_, rfl⟩
  · simp only [run_scraper_model]
    split
    · rfl
    · split
      · rfl
      · cases smtp <;> cases smtp' <;> rfl

end FindDriveData
